import Mathlib

/-!
Verification of the OpenCue Rez build scripts (`src/pycue/build.py`,
`src/rqd/build.py`) against their natural-language specification.

The development shallowly embeds the two `_build` pipelines and the
`_fix_rqd_imports` helper:

* Python's `str.replace(old, new)` (for nonempty `old`) is modelled by
  `pyReplace` on `List Char`: a left-to-right scan replacing leftmost,
  non-overlapping occurrences.  The empty-pattern case of Python's
  `str.replace` is never exercised by the scripts and is modelled as the
  identity.
* The stateful `_build` functions are modelled as pure functions from an
  environment (the outcomes of filesystem probes and subprocesses) to the
  ordered trace of observable events plus the optional `TestError` message.
* Directories are modelled as association lists of (file name, content).
-/

namespace OpenCueBuild

/-- Scanning core of Python's `str.replace`: `n` is fuel (one unit per
examined position, so `s.length` units always suffice); at each position the
pattern `p` is tested; on a match `r` is emitted and `p.length` characters are
consumed, otherwise one character is copied. -/
def replaceFuel (p r : List Char) : Nat → List Char → List Char
  | _, [] => []
  | 0, s => s
  | Nat.succ n, c :: cs =>
    if p.isPrefixOf (c :: cs) then
      r ++ replaceFuel p r n (List.drop p.length (c :: cs))
    else
      c :: replaceFuel p r n cs

/-- Python's `str.replace old new` at the character-list level (nonempty
`old`; the scripts only ever call it with nonempty literals). -/
def pyReplace (p r s : List Char) : List Char :=
  if p = [] then s else replaceFuel p r s.length s

/-- The canonical generated-package prefix `opencue_proto.` that
`_fix_rqd_imports` rewrites. -/
def opencueProtoPat : List Char := "opencue_proto.".data

/-- The relocated package pattern `rqd.compiled_proto.`. -/
def rqdCompiledPat : List Char := "rqd.compiled_proto.".data

/-- Pattern of the first substitution in `_fix_rqd_imports`. -/
def importPat : List Char := "import opencue_proto.".data

/-- Replacement of the first substitution in `_fix_rqd_imports`. -/
def importRepl : List Char := "import rqd.compiled_proto.".data

/-- Pattern of the second substitution in `_fix_rqd_imports`. -/
def fromPat : List Char := "from opencue_proto.".data

/-- Replacement of the second substitution in `_fix_rqd_imports`. -/
def fromRepl : List Char := "from rqd.compiled_proto.".data

/-- The per-file content transformation performed by `_fix_rqd_imports`
(`src/rqd/build.py`, lines 31-43): three successive `str.replace` calls. -/
def fixContentChars (s : List Char) : List Char :=
  pyReplace opencueProtoPat rqdCompiledPat
    (pyReplace fromPat fromRepl
      (pyReplace importPat importRepl s))

/-- `_fix_rqd_imports`'s content transformation at the `String` level. -/
def fixRqdImportsContent (s : String) : String :=
  String.mk (fixContentChars s.data)

/-- Python's `str.endswith`. -/
def pyEndsWith (s sfx : String) : Bool :=
  List.isSuffixOf sfx.data s.data

/-- `os.path.join` for a directory and a relative file name. -/
def pyPathJoin (a b : String) : String := a ++ "/" ++ b

/-- `str` applied to a Python list of strings (elements rendered with
`repr`, i.e. in single quotes; no argument used by the scripts contains a
quote character). -/
def pyStrOfList (l : List String) : String :=
  "[" ++ String.intercalate ", " (l.map (fun a => "'" ++ a ++ "'")) ++ "]"

/-- `str(subprocess.CalledProcessError(returncode, cmd))` as produced by
CPython: `Command '<cmd>' returned non-zero exit status <code>.`  The
captured stderr is an attribute of the exception object but is not part of
its string rendering. -/
def pyCPEStr (cmd : List String) (code : Nat) : String :=
  "Command '" ++ pyStrOfList cmd ++ "' returned non-zero exit status "
    ++ toString code ++ "."

/-- Outcome of attempting to launch the `2to3` tool. -/
inductive NormOutcome where
  | success
  | calledProcessError (code : Nat)
  | toolNotFound
  deriving DecidableEq

/-- Observable events of one `_build` run, in execution order: directory
clearing, the three possible subprocess launches, log lines
(`logger.error` / `logger.warning`), and the rqd/pycue tail steps. -/
inductive Event where
  | clearOutputDir
  | runProtoc (cmd : List String)
  | runFixScript (cmd : List String)
  | runNormalizer (cmd : List String)
  | logError (msg : String)
  | warn (msg : String)
  | copyRqdTree
  | fixFile (name : String)
  | createRqdExecutable
  | copyEntry (name : String)
  deriving DecidableEq

/-- True for the events that launch a subprocess. -/
def isSubprocessEvent : Event → Bool
  | Event.runProtoc _ => true
  | Event.runFixScript _ => true
  | Event.runNormalizer _ => true
  | _ => false

/-- Environment of the shared proto-compilation block (identical, line for
line, in `src/pycue/build.py` lines 33-123 and `src/rqd/build.py` lines
59-149): results of the filesystem probes and of the three subprocesses. -/
structure ProtoEnv where
  protoSrcExists : Bool
  protoSrcPath : String
  protoSrcFiles : List String
  pythonExe : String
  compiledProtoPath : String
  protocExitCode : Nat
  protocStdout : String
  protocStderr : String
  fixScriptExists : Bool
  fixScriptPath : String
  fixScriptExitCode : Nat
  fixScriptStdout : String
  fixScriptStderr : String
  compiledDirFiles : List String
  normOutcome : NormOutcome
  deriving DecidableEq

/-- The `grpc_tools.protoc` command line built by `_build`. -/
def protocCmd (env : ProtoEnv) (protoFiles : List String) : List String :=
  [env.pythonExe, "-m", "grpc_tools.protoc", "-I=.",
   "--python_out=" ++ env.compiledProtoPath,
   "--grpc_python_out=" ++ env.compiledProtoPath] ++ protoFiles

/-- The `fix_compiled_proto.py` command line built by `_build`. -/
def fixScriptCmd (env : ProtoEnv) : List String :=
  [env.pythonExe, env.fixScriptPath, env.compiledProtoPath]

/-- The shared proto block of `_build`: check the proto source directory,
clear the output directory, discover `.proto` files, run the stub compiler
(fatal on failure), run the import-fix script (skip with a warning if
absent, fatal on failure), then run 2to3 (best effort).  Returns the event
trace and the optional `TestError` message. -/
def protoStages (env : ProtoEnv) : List Event × Option String :=
  if env.protoSrcExists then
    let protoFiles := env.protoSrcFiles.filter (fun f => pyEndsWith f ".proto")
    if protoFiles.isEmpty then
      ([Event.clearOutputDir], some "No .proto files found in proto source directory")
    else
      let cmd := protocCmd env protoFiles
      if env.protocExitCode ≠ 0 then
        ([Event.clearOutputDir, Event.runProtoc cmd,
          Event.logError ("Failed to compile proto files: " ++ pyCPEStr cmd env.protocExitCode),
          Event.logError ("stdout: " ++ env.protocStdout),
          Event.logError ("stderr: " ++ env.protocStderr)],
         some ("Proto compilation failed: " ++ pyCPEStr cmd env.protocExitCode))
      else
        let fixStep : List Event × Option String :=
          if env.fixScriptExists then
            if env.fixScriptExitCode ≠ 0 then
              ([Event.runFixScript (fixScriptCmd env),
                Event.logError ("Failed to fix proto imports: "
                  ++ pyCPEStr (fixScriptCmd env) env.fixScriptExitCode),
                Event.logError ("stdout: " ++ env.fixScriptStdout),
                Event.logError ("stderr: " ++ env.fixScriptStderr)],
               some ("Proto import fixing failed: "
                 ++ pyCPEStr (fixScriptCmd env) env.fixScriptExitCode))
            else ([Event.runFixScript (fixScriptCmd env)], none)
          else ([Event.warn ("fix_compiled_proto.py not found at " ++ env.fixScriptPath)], none)
        match fixStep with
        | (evFix, some e) => ([Event.clearOutputDir, Event.runProtoc cmd] ++ evFix, some e)
        | (evFix, none) =>
          let pyFiles := env.compiledDirFiles.filter (fun f => pyEndsWith f ".py")
          let evNorm :=
            if pyFiles.isEmpty then [Event.warn "No Python files found for 2to3 conversion"]
            else
              let nCmd := ["2to3", "-w", "-n"] ++ pyFiles
              match env.normOutcome with
              | NormOutcome.success => [Event.runNormalizer nCmd]
              | NormOutcome.calledProcessError code =>
                [Event.runNormalizer nCmd,
                 Event.warn ("2to3 conversion failed or not needed: " ++ pyCPEStr nCmd code)]
              | NormOutcome.toolNotFound =>
                [Event.warn "2to3 tool not found, skipping conversion"]
          ([Event.clearOutputDir, Event.runProtoc cmd] ++ evFix ++ evNorm, none)
  else ([], some ("Proto source not found at " ++ env.protoSrcPath))

/-- The fixed list of hand-written RQD source files rewritten by
`_fix_rqd_imports` (`files_to_fix`). -/
def filesToFix : List String :=
  ["rqcore.py", "rqmachine.py", "rqnetwork.py", "rqdservicers.py", "cuerqd.py"]

/-- `os.path.exists`/`open` on the modelled directory: first entry with the
given name. -/
def lookupFile (d : List (String × String)) (name : String) : Option String :=
  (d.find? (fun e => e.1 == name)).map Prod.snd

/-- Writing `content` to `name`: contents of entries named `name` are
replaced, nothing else changes. -/
def updateFile (d : List (String × String)) (name content : String) :
    List (String × String) :=
  d.map (fun e => if e.1 == name then (e.1, content) else e)

/-- The loop body sequence of `_fix_rqd_imports`: for each listed file, if
present rewrite it in place, otherwise warn and continue. -/
def fixRqdImportsGo (dirPath : String) (d : List (String × String)) :
    List String → List (String × String) × List Event
  | [] => (d, [])
  | name :: rest =>
    match lookupFile d name with
    | some content =>
      let step := fixRqdImportsGo dirPath (updateFile d name (fixRqdImportsContent content)) rest
      (step.1, Event.fixFile name :: step.2)
    | none =>
      let step := fixRqdImportsGo dirPath d rest
      (step.1, Event.warn ("File not found: " ++ pyPathJoin dirPath name) :: step.2)

/-- `_fix_rqd_imports` (`src/rqd/build.py` lines 19-47) over the modelled
directory: rewrites the five enumerated files, warns on missing ones. -/
def fix_rqd_imports (dirPath : String) (d : List (String × String)) :
    List (String × String) × List Event :=
  fixRqdImportsGo dirPath d filesToFix

/-- Environment of the rqd `_build`. -/
structure RqdEnv where
  proto : ProtoEnv
  rqdDestPath : String
  rqdFiles : List (String × String)
  deriving DecidableEq

/-- `_build` of `src/rqd/build.py`: shared proto block, then copy the rqd
tree, run the Mode B rewrite on the copy, and create the executable. -/
def rqdBuild (env : RqdEnv) : List Event × Option String :=
  match protoStages env.proto with
  | (evs, some e) => (evs, some e)
  | (evs, none) =>
    (evs ++ [Event.copyRqdTree]
         ++ (fix_rqd_imports env.rqdDestPath env.rqdFiles).2
         ++ [Event.createRqdExecutable], none)

/-- Environment of the pycue `_build`. -/
structure PycueEnv where
  proto : ProtoEnv
  sourceEntries : List String
  deriving DecidableEq

/-- `_build` of `src/pycue/build.py`: shared proto block, then copy every
top-level source entry except `build` into the build directory. -/
def pycueBuild (env : PycueEnv) : List Event × Option String :=
  match protoStages env.proto with
  | (evs, some e) => (evs, some e)
  | (evs, none) =>
    (evs ++ (env.sourceEntries.filter (fun n => n ≠ "build")).map Event.copyEntry, none)

/-- The `.proto` files discovered by `_build`. -/
def discoveredProtos (env : ProtoEnv) : List String :=
  env.protoSrcFiles.filter (fun f => pyEndsWith f ".proto")

/-- Events of the import-fix stage when it does not abort the build. -/
def fixStepEvents (env : ProtoEnv) : List Event :=
  if env.fixScriptExists then [Event.runFixScript (fixScriptCmd env)]
  else [Event.warn ("fix_compiled_proto.py not found at " ++ env.fixScriptPath)]

/-- Events of the 2to3 stage (never aborts the build). -/
def normStepEvents (env : ProtoEnv) : List Event :=
  let pyFiles := env.compiledDirFiles.filter (fun f => pyEndsWith f ".py")
  if pyFiles.isEmpty then [Event.warn "No Python files found for 2to3 conversion"]
  else
    let nCmd := ["2to3", "-w", "-n"] ++ pyFiles
    match env.normOutcome with
    | NormOutcome.success => [Event.runNormalizer nCmd]
    | NormOutcome.calledProcessError code =>
      [Event.runNormalizer nCmd,
       Event.warn ("2to3 conversion failed or not needed: " ++ pyCPEStr nCmd code)]
    | NormOutcome.toolNotFound =>
      [Event.warn "2to3 tool not found, skipping conversion"]

/-- True exactly for the stub-compiler launch event. -/
def isRunProtoc : Event → Bool
  | Event.runProtoc _ => true
  | _ => false

/-- True exactly for the import-fix-script launch event (Mode A rewrite). -/
def isRunFixScript : Event → Bool
  | Event.runFixScript _ => true
  | _ => false

/-- True exactly for the 2to3 launch event (syntax normalization). -/
def isRunNormalizer : Event → Bool
  | Event.runNormalizer _ => true
  | _ => false

/-- True exactly for a Mode B per-file rewrite event. -/
def isFixFile : Event → Bool
  | Event.fixFile _ => true
  | _ => false

/-- Every `P`-event of the trace occurs strictly before every `Q`-event. -/
def EvBefore (pSel qSel : Event → Bool) (l : List Event) : Prop :=
  ∀ (i j : Nat) (ei ej : Event), l[i]? = some ei → pSel ei = true →
    l[j]? = some ej → qSel ej = true → i < j

/-- Effect of an event on the contents of the compiled-stub output
directory: clearing empties it, the stub compiler adds its generated files
`gen`, everything else leaves it alone. -/
def applyDirEvent (gen : List (String × String)) (d : List (String × String)) :
    Event → List (String × String)
  | Event.clearOutputDir => []
  | Event.runProtoc _ => d ++ gen
  | _ => d

/-- The run reaches the import-fix stage: source directory present, at
least one `.proto` file, stub compiler succeeded. -/
def reachesFixStage (env : ProtoEnv) : Prop :=
  env.protoSrcExists = true ∧ (discoveredProtos env).isEmpty = false ∧
    env.protocExitCode = 0

/-- The run reaches the 2to3 stage: import-fix stage passed (script absent,
or present and exited 0). -/
def reachesNormStage (env : ProtoEnv) : Prop :=
  reachesFixStage env ∧ (env.fixScriptExists = true → env.fixScriptExitCode = 0)

/-- A proto environment of a fully successful run, used by witnesses. -/
def envOkP : ProtoEnv :=
  { protoSrcExists := true, protoSrcPath := "/repo/proto/src",
    protoSrcFiles := ["job.proto"], pythonExe := "python3",
    compiledProtoPath := "/build/rqd/compiled_proto",
    protocExitCode := 0, protocStdout := "", protocStderr := "",
    fixScriptExists := true, fixScriptPath := "/repo/proto/fix_compiled_proto.py",
    fixScriptExitCode := 0, fixScriptStdout := "", fixScriptStderr := "",
    compiledDirFiles := ["job_pb2.py"], normOutcome := NormOutcome.success }

/-- A successful rqd environment. -/
def envOkRqd : RqdEnv :=
  { proto := envOkP, rqdDestPath := "/build/rqd",
    rqdFiles := [("rqcore.py", "import opencue_proto.job")] }

/-- A successful pycue environment. -/
def envOkPycue : PycueEnv :=
  { proto := envOkP, sourceEntries := ["opencue", "build"] }

/-- Environment in which the fix-imports script exists but exits 1. -/
def envFixFailP : ProtoEnv :=
  { envOkP with fixScriptExitCode := 1, fixScriptStderr := "FIX_STDERR" }

/-- rqd environment in which the fix-imports script exists but exits 1. -/
def envFixFailRqd : RqdEnv := { envOkRqd with proto := envFixFailP }

/-- pycue environment in which the fix-imports script exists but exits 1. -/
def envFixFailPycue : PycueEnv := { envOkPycue with proto := envFixFailP }

/-- Environment in which the stub compiler exits 1 with captured stderr. -/
def envProtocFailP : ProtoEnv :=
  { envOkP with protocExitCode := 1, protocStderr := "PROTOC_STDERR_XYZ" }

/-- rqd environment in which the stub compiler fails. -/
def envProtocFailRqd : RqdEnv := { envOkRqd with proto := envProtocFailP }

/-- Environment whose proto source directory exists but holds no `.proto`
file. -/
def envNoProtosP : ProtoEnv := { envOkP with protoSrcFiles := ["README.md"] }

/-- rqd environment with an empty proto source directory. -/
def envNoProtosRqd : RqdEnv := { envOkRqd with proto := envNoProtosP }

/-- pycue environment with an empty proto source directory. -/
def envNoProtosPycue : PycueEnv := { envOkPycue with proto := envNoProtosP }

/-- Environment whose 2to3 subprocess exits 1. -/
def envNormFailP : ProtoEnv :=
  { envOkP with normOutcome := NormOutcome.calledProcessError 1 }

/-- rqd environment whose 2to3 subprocess exits 1. -/
def envNormFailRqd : RqdEnv := { envOkRqd with proto := envNormFailP }

/-- Environment in which the 2to3 tool is not installed. -/
def envNormMissingP : ProtoEnv :=
  { envOkP with normOutcome := NormOutcome.toolNotFound }

/-- pycue environment in which the 2to3 tool is not installed. -/
def envNormMissingPycue : PycueEnv := { envOkPycue with proto := envNormMissingP }

/-- An occurrence inside an appended list lies in the left part, in the right
part, or straddles the seam (split at `j`). -/
theorem infixAppendCases {α : Type} {g b : List α} :
    ∀ a : List α, g <:+: a ++ b →
      g <:+: a ∨ g <:+: b ∨
        ∃ j, 0 < j ∧ j < g.length ∧ g.take j <:+ a ∧ g.drop j <+: b := by
  intro a
  induction a with
  | nil => intro h; exact Or.inr (Or.inl (by simpa using h))
  | cons x a ih =>
    intro h
    rw [List.cons_append] at h
    rcases List.infix_cons_iff.mp h with hpre | htl
    · match g, hpre with
      | [], _ => exact Or.inl (List.nil_infix)
      | gh :: g', hpre =>
        obtain ⟨hgh, hpre'⟩ := List.cons_prefix_cons.mp hpre
        rcases List.prefix_or_prefix_of_prefix hpre' (List.prefix_append a b) with h1 | h2
        · exact Or.inl (List.IsPrefix.isInfix (by rw [hgh]; exact List.cons_prefix_cons.mpr ⟨rfl, h1⟩))
        · rcases Nat.lt_or_ge a.length g'.length with hlt | hge
          · refine Or.inr (Or.inr ⟨a.length + 1, by omega, ?_, ?_, ?_⟩)
            · simpa [List.length_cons] using Nat.succ_lt_succ hlt
            · have htake : g'.take a.length = a := (List.prefix_iff_eq_take.mp h2).symm
              have heq : (gh :: g').take (a.length + 1) = x :: a := by
                rw [List.take_succ_cons, htake, hgh]
              exact heq ▸ List.suffix_rfl
            · have hdr := hpre'.drop a.length
              rw [List.drop_left] at hdr
              simpa [List.drop_succ_cons] using hdr
          · have hag : a = g' := h2.eq_of_length (Nat.le_antisymm h2.length_le hge)
            exact Or.inl (List.IsPrefix.isInfix (by rw [hgh, ← hag]))
    · rcases ih htl with h1 | h2 | ⟨j, hj0, hjl, htk, hdr⟩
      · exact Or.inl (List.infix_cons h1)
      · exact Or.inr (Or.inl h2)
      · exact Or.inr (Or.inr ⟨j, hj0, hjl, List.suffix_cons_iff.mpr (Or.inr htk), hdr⟩)

/-- An occurrence in `b` is an occurrence in `a ++ b`. -/
theorem infAppLeft {α : Type} (a : List α) {g b : List α} (h : g <:+: b) :
    g <:+: a ++ b := by
  obtain ⟨u, v, huv⟩ := h
  exact ⟨a ++ u, v, by rw [← huv]; simp [List.append_assoc]⟩

theorem replaceFuel_nil (p r : List Char) (n : Nat) : replaceFuel p r n [] = [] := by
  cases n <;> rfl

/-- If the pattern does not occur, the scan copies the input unchanged. -/
theorem replaceFuel_id_of_no_occ (p r : List Char) :
    ∀ (n : Nat) (s : List Char), s.length ≤ n → ¬ p <:+: s → replaceFuel p r n s = s := by
  intro n
  induction n with
  | zero =>
    intro s hs _
    rw [List.length_eq_zero.mp (Nat.le_zero.mp hs), replaceFuel_nil]
  | succ n ih =>
    intro s hs hno
    match s with
    | [] => rfl
    | c :: cs =>
      have hb : p.isPrefixOf (c :: cs) = false := by
        rw [Bool.eq_false_iff]
        intro htrue
        exact hno (List.isPrefixOf_iff_prefix.mp htrue).isInfix
      show (if p.isPrefixOf (c :: cs) then _ else _) = _
      rw [if_neg (by simp [hb])]
      have : ¬ p <:+: cs := fun hcs => hno (List.infix_cons hcs)
      rw [ih cs (by simpa using Nat.le_of_succ_le_succ hs) this]

/-- If the pattern occurs, the replacement string occurs in the output. -/
theorem replaceFuel_repl_occurs (p r : List Char) (hp : p ≠ []) :
    ∀ (n : Nat) (s : List Char), s.length ≤ n → p <:+: s → r <:+: replaceFuel p r n s := by
  intro n
  induction n with
  | zero =>
    intro s hs hocc
    rw [List.length_eq_zero.mp (Nat.le_zero.mp hs)] at hocc
    exact absurd (List.infix_nil.mp hocc) hp
  | succ n ih =>
    intro s hs hocc
    match s with
    | [] => exact absurd (List.infix_nil.mp hocc) hp
    | c :: cs =>
      by_cases hb : p.isPrefixOf (c :: cs) = true
      · show r <:+: (if p.isPrefixOf (c :: cs) then _ else _)
        rw [if_pos hb]
        exact ⟨[], _, by rw [List.nil_append]⟩
      · show r <:+: (if p.isPrefixOf (c :: cs) then _ else _)
        rw [if_neg hb]
        rcases List.infix_cons_iff.mp hocc with hpre | htail
        · exact absurd (List.isPrefixOf_iff_prefix.mpr hpre) hb
        · exact List.infix_cons (ih cs (by simpa using Nat.le_of_succ_le_succ hs) htail)

/-- A nonempty proper tail of the pattern that is a prefix of the scan's
output was already a prefix of the input (needs: no such tail is a prefix of
the replacement, and the replacement is long enough). -/
theorem replaceFuel_tail_track (p r : List Char)
    (hK3 : ∀ j, j < p.length → 0 < j → ¬ (p.drop j <+: r))
    (hK4 : p.length ≤ r.length + 1) :
    ∀ (n : Nat) (s : List Char) (j : Nat), s.length ≤ n → 0 < j → j < p.length →
      p.drop j <+: replaceFuel p r n s → p.drop j <+: s := by
  intro n
  induction n with
  | zero =>
    intro s j hs _ hj2 hpre
    rw [List.length_eq_zero.mp (Nat.le_zero.mp hs), replaceFuel_nil] at hpre
    have := List.prefix_nil.mp hpre
    have := congrArg List.length this
    simp [List.length_drop] at this
    omega
  | succ n ih =>
    intro s j hs hj1 hj2 hpre
    match s with
    | [] =>
      rw [replaceFuel_nil] at hpre
      have := congrArg List.length (List.prefix_nil.mp hpre)
      simp [List.length_drop] at this
      omega
    | c :: cs =>
      by_cases hb : p.isPrefixOf (c :: cs) = true
      · rw [show replaceFuel p r (n + 1) (c :: cs)
              = r ++ replaceFuel p r n (List.drop p.length (c :: cs)) from by
            show (if p.isPrefixOf (c :: cs) then _ else _) = _
            rw [if_pos hb]] at hpre
        have hlen : (p.drop j).length ≤ r.length := by
          simp [List.length_drop]
          omega
        have := (List.isPrefix_append_of_length hlen).mp hpre
        exact absurd this (hK3 j hj2 hj1)
      · rw [show replaceFuel p r (n + 1) (c :: cs) = c :: replaceFuel p r n cs from by
            show (if p.isPrefixOf (c :: cs) then _ else _) = _
            rw [if_neg hb]] at hpre
        rw [List.drop_eq_getElem_cons hj2] at hpre ⊢
        obtain ⟨hc, htl⟩ := List.cons_prefix_cons.mp hpre
        rcases Nat.eq_or_lt_of_le (Nat.succ_le_of_lt hj2) with heq | hlt
        · have : p.drop (j + 1) = [] := List.drop_of_length_le (le_of_eq heq.symm)
          rw [this] at htl ⊢
          exact List.cons_prefix_cons.mpr ⟨hc, List.nil_prefix⟩
        · have := ih cs (j + 1) (by simpa using Nat.le_of_succ_le_succ hs)
            (Nat.succ_pos j) hlt htl
          exact List.cons_prefix_cons.mpr ⟨hc, this⟩

/-- Main lemma: after replacing `p` by `r`, the pattern `p` no longer occurs
anywhere in the output.  The side conditions say `p` does not occur in `r`,
no nonempty proper prefix of `p` is a suffix of `r`, no nonempty proper tail
of `p` is a prefix of `r`, and `r` is long enough; all four hold for the
concrete patterns of `_fix_rqd_imports` (checked by `decide`). -/
theorem replaceFuel_no_occ (p r : List Char) (hp : p ≠ [])
    (hK1 : ¬ p <:+: r)
    (hK2 : ∀ j, j < p.length → 0 < j → ¬ (p.take j <:+ r))
    (hK3 : ∀ j, j < p.length → 0 < j → ¬ (p.drop j <+: r))
    (hK4 : p.length ≤ r.length + 1) :
    ∀ (n : Nat) (s : List Char), s.length ≤ n → ¬ p <:+: replaceFuel p r n s := by
  intro n
  induction n with
  | zero =>
    intro s hs habs
    rw [List.length_eq_zero.mp (Nat.le_zero.mp hs), replaceFuel_nil] at habs
    exact hp (List.infix_nil.mp habs)
  | succ n ih =>
    intro s hs habs
    match s with
    | [] =>
      rw [replaceFuel_nil] at habs
      exact hp (List.infix_nil.mp habs)
    | c :: cs =>
      by_cases hb : p.isPrefixOf (c :: cs) = true
      · rw [show replaceFuel p r (n + 1) (c :: cs)
              = r ++ replaceFuel p r n (List.drop p.length (c :: cs)) from by
            show (if p.isPrefixOf (c :: cs) then _ else _) = _
            rw [if_pos hb]] at habs
        rcases infixAppendCases r habs with h1 | h2 | ⟨j, hj0, hjl, htk, _⟩
        · exact hK1 h1
        · have hplen : 1 ≤ p.length := by
            cases p with
            | nil => exact absurd rfl hp
            | cons a l => simp
          exact ih (List.drop p.length (c :: cs))
            (by
              have hs' : cs.length + 1 ≤ n + 1 := by simpa using hs
              simp [List.length_drop]
              omega) h2
        · exact hK2 j hjl hj0 htk
      · rw [show replaceFuel p r (n + 1) (c :: cs) = c :: replaceFuel p r n cs from by
            show (if p.isPrefixOf (c :: cs) then _ else _) = _
            rw [if_neg hb]] at habs
        rcases List.infix_cons_iff.mp habs with hpre | htl
        · match p, hp, hb, hpre with
          | ph :: pt, hp, hb, hpre =>
            obtain ⟨hc, hpt⟩ := List.cons_prefix_cons.mp hpre
            match pt, hpt with
            | [], _ =>
              exact hb (List.isPrefixOf_iff_prefix.mpr
                (by rw [hc]; exact List.cons_prefix_cons.mpr ⟨rfl, List.nil_prefix⟩))
            | q :: qt, hpt =>
              have hdrop : (ph :: q :: qt).drop 1 = q :: qt := rfl
              have htrack := replaceFuel_tail_track (ph :: q :: qt) r hK3 hK4 n cs 1
                (by simpa using Nat.le_of_succ_le_succ hs) Nat.one_pos
                (by simp) (by rw [hdrop]; exact hpt)
              rw [hdrop] at htrack
              exact hb (List.isPrefixOf_iff_prefix.mpr
                (by rw [hc]; exact List.cons_prefix_cons.mpr ⟨rfl, htrack⟩))
        · exact ih cs (by simpa using Nat.le_of_succ_le_succ hs) htl

/-- A pending tail of an unrelated pattern `g` survives the scan: if
`g.drop j` is a prefix of the input, it is a prefix of the output.  Needs
that `g` and the scanned pattern `q` cannot overlap. -/
theorem replaceFuel_keeps_pre (q t g : List Char)
    (hqg : ¬ q <:+: g) (hgq : ¬ g <:+: q)
    (hD3 : ∀ j, j < g.length → 0 < j → ¬ (g.drop j <+: q)) :
    ∀ (n : Nat) (s : List Char) (j : Nat), s.length ≤ n → j < g.length →
      g.drop j <+: s → g.drop j <+: replaceFuel q t n s := by
  intro n
  induction n with
  | zero =>
    intro s j hs hj hpre
    rw [List.length_eq_zero.mp (Nat.le_zero.mp hs)] at hpre ⊢
    exact hpre
  | succ n ih =>
    intro s j hs hj hpre
    match s with
    | [] => rw [replaceFuel_nil]; exact hpre
    | c :: cs =>
      by_cases hb : q.isPrefixOf (c :: cs) = true
      · exfalso
        have hq : q <+: c :: cs := List.isPrefixOf_iff_prefix.mp hb
        rcases List.prefix_or_prefix_of_prefix hq hpre with h1 | h2
        · exact hqg (List.infix_iff_prefix_suffix.mpr ⟨g.drop j, h1, List.drop_suffix j g⟩)
        · rcases Nat.eq_zero_or_pos j with hj0 | hj0
          · rw [hj0, List.drop_zero] at h2
            exact hgq h2.isInfix
          · exact hD3 j hj hj0 h2
      · rw [show replaceFuel q t (n + 1) (c :: cs) = c :: replaceFuel q t n cs from by
            show (if q.isPrefixOf (c :: cs) then _ else _) = _
            rw [if_neg hb]]
        rw [List.drop_eq_getElem_cons hj] at hpre ⊢
        obtain ⟨hc, htl⟩ := List.cons_prefix_cons.mp hpre
        rcases Nat.eq_or_lt_of_le (Nat.succ_le_of_lt hj) with heq | hlt
        · have hnil : g.drop (j + 1) = [] := List.drop_of_length_le (le_of_eq heq.symm)
          rw [hnil] at htl ⊢
          exact List.cons_prefix_cons.mpr ⟨hc, List.nil_prefix⟩
        · exact List.cons_prefix_cons.mpr
            ⟨hc, ih cs (j + 1) (by simpa using Nat.le_of_succ_le_succ hs) hlt htl⟩

/-- An occurrence of an unrelated pattern `g` survives the scan for `q`:
`g` and `q` cannot overlap in any alignment, so no replacement touches the
occurrence. -/
theorem replaceFuel_keeps_occ (q t g : List Char) (hg : g ≠ [])
    (hqg : ¬ q <:+: g) (hgq : ¬ g <:+: q)
    (hD1 : ∀ j, j < q.length → 0 < j → ¬ (q.drop j <+: g))
    (hD3 : ∀ j, j < g.length → 0 < j → ¬ (g.drop j <+: q)) :
    ∀ (n : Nat) (s : List Char), s.length ≤ n → g <:+: s → g <:+: replaceFuel q t n s := by
  intro n
  induction n with
  | zero =>
    intro s hs hocc
    rw [List.length_eq_zero.mp (Nat.le_zero.mp hs)] at hocc ⊢
    rw [replaceFuel_nil]
    exact hocc
  | succ n ih =>
    intro s hs hocc
    match s with
    | [] => rw [replaceFuel_nil]; exact hocc
    | c :: cs =>
      by_cases hb : q.isPrefixOf (c :: cs) = true
      · rw [show replaceFuel q t (n + 1) (c :: cs)
              = t ++ replaceFuel q t n (List.drop q.length (c :: cs)) from by
            show (if q.isPrefixOf (c :: cs) then _ else _) = _
            rw [if_pos hb]]
        obtain ⟨s', hs'⟩ := List.isPrefixOf_iff_prefix.mp hb
        have hq1 : 1 ≤ q.length := by
          cases q with
          | nil =>
            exfalso
            exact hqg List.nil_infix
          | cons a l => simp
        have hsdrop : List.drop q.length (c :: cs) = s' := by
          rw [← hs', List.drop_left]
        have hslen : s'.length ≤ n := by
          have h1 := congrArg List.length hs'
          have h2 : cs.length + 1 ≤ n + 1 := by simpa using hs
          simp [List.length_append] at h1
          omega
        rw [← hs'] at hocc
        rcases infixAppendCases q hocc with h1 | h2 | ⟨j, hj0, hjl, htk, _⟩
        · exact absurd h1 hgq
        · rw [hsdrop]
          exact infAppLeft t (ih s' hslen h2)
        · exfalso
          obtain ⟨w, hw⟩ := htk
          have hwlen : w.length < q.length := by
            have := congrArg List.length hw
            simp [List.length_append, List.length_take] at this
            omega
          rcases Nat.eq_zero_or_pos w.length with hw0 | hw0
          · rw [List.length_eq_zero.mp hw0, List.nil_append] at hw
            exact hqg (hw ▸ List.take_prefix j g).isInfix
          · have hqdrop : q.drop w.length = g.take j := by
              rw [← hw, List.drop_left]
            exact hD1 w.length hwlen hw0 (hqdrop ▸ List.take_prefix j g)
      · rw [show replaceFuel q t (n + 1) (c :: cs) = c :: replaceFuel q t n cs from by
            show (if q.isPrefixOf (c :: cs) then _ else _) = _
            rw [if_neg hb]]
        rcases List.infix_cons_iff.mp hocc with hpre | htl
        · have := replaceFuel_keeps_pre q t g hqg hgq hD3 (n + 1) (c :: cs) 0 hs
            (by cases g with
                | nil => exact absurd rfl hg
                | cons a l => simp) (by rw [List.drop_zero]; exact hpre)
          rw [List.drop_zero] at this
          rw [show replaceFuel q t (n + 1) (c :: cs) = c :: replaceFuel q t n cs from by
                show (if q.isPrefixOf (c :: cs) then _ else _) = _
                rw [if_neg hb]] at this
          exact this.isInfix
        · exact List.infix_cons (ih cs (by simpa using Nat.le_of_succ_le_succ hs) htl)

/-- Tracking a pending tail of a pattern `g` through the scan for `q`:
either the tail is still a prefix of the output, or a replacement was
emitted (so `t` occurs in the output).  No overlap conditions needed. -/
theorem replaceFuel_hit_or_keep_pre (q t g : List Char) :
    ∀ (n : Nat) (s : List Char) (j : Nat), s.length ≤ n → j < g.length →
      g.drop j <+: s →
      g.drop j <+: replaceFuel q t n s ∨ t <:+: replaceFuel q t n s := by
  intro n
  induction n with
  | zero =>
    intro s j hs hj hpre
    rw [List.length_eq_zero.mp (Nat.le_zero.mp hs)] at hpre ⊢
    rw [replaceFuel_nil]
    exact Or.inl hpre
  | succ n ih =>
    intro s j hs hj hpre
    match s with
    | [] => rw [replaceFuel_nil]; exact Or.inl hpre
    | c :: cs =>
      by_cases hb : q.isPrefixOf (c :: cs) = true
      · rw [show replaceFuel q t (n + 1) (c :: cs)
              = t ++ replaceFuel q t n (List.drop q.length (c :: cs)) from by
            show (if q.isPrefixOf (c :: cs) then _ else _) = _
            rw [if_pos hb]]
        exact Or.inr ⟨[], _, by rw [List.nil_append]⟩
      · rw [show replaceFuel q t (n + 1) (c :: cs) = c :: replaceFuel q t n cs from by
            show (if q.isPrefixOf (c :: cs) then _ else _) = _
            rw [if_neg hb]]
        rw [List.drop_eq_getElem_cons hj] at hpre ⊢
        obtain ⟨hc, htl⟩ := List.cons_prefix_cons.mp hpre
        rcases Nat.eq_or_lt_of_le (Nat.succ_le_of_lt hj) with heq | hlt
        · have hnil : g.drop (j + 1) = [] := List.drop_of_length_le (le_of_eq heq.symm)
          rw [hnil]
          exact Or.inl (List.cons_prefix_cons.mpr ⟨hc, List.nil_prefix⟩)
        · rcases ih cs (j + 1) (by simpa using Nat.le_of_succ_le_succ hs) hlt htl with h1 | h2
          · exact Or.inl (List.cons_prefix_cons.mpr ⟨hc, h1⟩)
          · exact Or.inr (List.infix_cons h2)

/-- An occurrence of a pattern `g` either survives the scan for `q` or a
replacement was emitted where they overlapped, in which case `t` occurs. -/
theorem replaceFuel_hit_or_keep (q t g : List Char) (hg : g ≠ []) :
    ∀ (n : Nat) (s : List Char), s.length ≤ n → g <:+: s →
      g <:+: replaceFuel q t n s ∨ t <:+: replaceFuel q t n s := by
  intro n
  induction n with
  | zero =>
    intro s hs hocc
    rw [List.length_eq_zero.mp (Nat.le_zero.mp hs)] at hocc ⊢
    rw [replaceFuel_nil]
    exact Or.inl hocc
  | succ n ih =>
    intro s hs hocc
    match s with
    | [] => rw [replaceFuel_nil]; exact Or.inl hocc
    | c :: cs =>
      by_cases hb : q.isPrefixOf (c :: cs) = true
      · rw [show replaceFuel q t (n + 1) (c :: cs)
              = t ++ replaceFuel q t n (List.drop q.length (c :: cs)) from by
            show (if q.isPrefixOf (c :: cs) then _ else _) = _
            rw [if_pos hb]]
        exact Or.inr ⟨[], _, by rw [List.nil_append]⟩
      · rcases List.infix_cons_iff.mp hocc with hpre | htl
        · have h0 := replaceFuel_hit_or_keep_pre q t g (n + 1) (c :: cs) 0 hs
            (by cases g with
                | nil => exact absurd rfl hg
                | cons a l => simp) (by rw [List.drop_zero]; exact hpre)
          rw [List.drop_zero] at h0
          exact h0.imp List.IsPrefix.isInfix id
        · rw [show replaceFuel q t (n + 1) (c :: cs) = c :: replaceFuel q t n cs from by
              show (if q.isPrefixOf (c :: cs) then _ else _) = _
              rw [if_neg hb]]
          rcases ih cs (by simpa using Nat.le_of_succ_le_succ hs) htl with h1 | h2
          · exact Or.inl (List.infix_cons h1)
          · exact Or.inr (List.infix_cons h2)

theorem pyReplace_eq (p r s : List Char) (hp : p ≠ []) :
    pyReplace p r s = replaceFuel p r s.length s := by
  simp [pyReplace, hp]

/-- `str.replace` leaves a string without occurrences unchanged. -/
theorem pyReplace_id_of_no_occ (p r s : List Char) (hno : ¬ p <:+: s) :
    pyReplace p r s = s := by
  by_cases hp : p = []
  · simp [pyReplace, hp]
  · rw [pyReplace_eq p r s hp]
    exact replaceFuel_id_of_no_occ p r s.length s le_rfl hno

/-- `str.replace` eliminates every occurrence of its pattern (under the
non-overlap side conditions on pattern and replacement). -/
theorem pyReplace_no_occ (p r : List Char) (hp : p ≠ [])
    (hK1 : ¬ p <:+: r)
    (hK2 : ∀ j, j < p.length → 0 < j → ¬ (p.take j <:+ r))
    (hK3 : ∀ j, j < p.length → 0 < j → ¬ (p.drop j <+: r))
    (hK4 : p.length ≤ r.length + 1) (s : List Char) :
    ¬ p <:+: pyReplace p r s := by
  rw [pyReplace_eq p r s hp]
  exact replaceFuel_no_occ p r hp hK1 hK2 hK3 hK4 s.length s le_rfl

/-- If the pattern occurs, `str.replace` makes the replacement occur. -/
theorem pyReplace_repl_occurs (p r s : List Char) (hp : p ≠ [])
    (hocc : p <:+: s) : r <:+: pyReplace p r s := by
  rw [pyReplace_eq p r s hp]
  exact replaceFuel_repl_occurs p r hp s.length s le_rfl hocc

/-- An occurrence of a pattern that cannot overlap the replaced pattern
survives `str.replace`. -/
theorem pyReplace_keeps_occ (q t g : List Char) (hg : g ≠ [])
    (hqg : ¬ q <:+: g) (hgq : ¬ g <:+: q)
    (hD1 : ∀ j, j < q.length → 0 < j → ¬ (q.drop j <+: g))
    (hD3 : ∀ j, j < g.length → 0 < j → ¬ (g.drop j <+: q))
    (s : List Char) (hocc : g <:+: s) : g <:+: pyReplace q t s := by
  by_cases hq : q = []
  · simpa [pyReplace, hq] using hocc
  · rw [pyReplace_eq q t s hq]
    exact replaceFuel_keeps_occ q t g hg hqg hgq hD1 hD3 s.length s le_rfl hocc

/-- An occurrence of `g` either survives `str.replace` or the replacement
text occurs in the output. -/
theorem pyReplace_hit_or_keep (q t g : List Char) (hg : g ≠ [])
    (s : List Char) (hocc : g <:+: s) :
    g <:+: pyReplace q t s ∨ t <:+: pyReplace q t s := by
  by_cases hq : q = []
  · exact Or.inl (by simpa [pyReplace, hq] using hocc)
  · rw [pyReplace_eq q t s hq]
    exact replaceFuel_hit_or_keep q t g hg s.length s le_rfl hocc

/-- After `_fix_rqd_imports`'s content transformation, the canonical prefix
`opencue_proto.` does not occur anywhere in the output. -/
theorem fixContent_no_occ (s : List Char) :
    ¬ opencueProtoPat <:+: fixContentChars s := by
  unfold fixContentChars
  exact pyReplace_no_occ opencueProtoPat rqdCompiledPat (by decide) (by decide)
    (by decide) (by decide) (by decide) _

/-- If the canonical prefix occurred in the input, the relocated prefix
occurs in the output of `_fix_rqd_imports`'s content transformation. -/
theorem fixContent_relocated (s : List Char)
    (hocc : opencueProtoPat <:+: s) :
    rqdCompiledPat <:+: fixContentChars s := by
  unfold fixContentChars
  have hkeep2 : ∀ x : List Char, rqdCompiledPat <:+: x →
      rqdCompiledPat <:+: pyReplace fromPat fromRepl x := fun x hx =>
    pyReplace_keeps_occ fromPat fromRepl rqdCompiledPat (by decide) (by decide)
      (by decide) (by decide) (by decide) x hx
  have hkeep3 : ∀ x : List Char, rqdCompiledPat <:+: x →
      rqdCompiledPat <:+: pyReplace opencueProtoPat rqdCompiledPat x := fun x hx =>
    pyReplace_keeps_occ opencueProtoPat rqdCompiledPat rqdCompiledPat (by decide)
      (by decide) (by decide) (by decide) (by decide) x hx
  rcases pyReplace_hit_or_keep importPat importRepl opencueProtoPat (by decide)
      s hocc with h1 | h1
  · rcases pyReplace_hit_or_keep fromPat fromRepl opencueProtoPat (by decide)
        _ h1 with h2 | h2
    · exact pyReplace_repl_occurs opencueProtoPat rqdCompiledPat _ (by decide) h2
    · exact hkeep3 _ ((by decide : rqdCompiledPat <:+: fromRepl).trans h2)
  · exact hkeep3 _ (hkeep2 _ ((by decide : rqdCompiledPat <:+: importRepl).trans h1))

/-- `_fix_rqd_imports`'s content transformation is idempotent. -/
theorem fixContent_idem (s : List Char) :
    fixContentChars (fixContentChars s) = fixContentChars s := by
  have hno : ¬ opencueProtoPat <:+: fixContentChars s := fixContent_no_occ s
  have h1 : ¬ importPat <:+: fixContentChars s := fun h =>
    hno ((by decide : opencueProtoPat <:+: importPat).trans h)
  have h2 : ¬ fromPat <:+: fixContentChars s := fun h =>
    hno ((by decide : opencueProtoPat <:+: fromPat).trans h)
  show pyReplace opencueProtoPat rqdCompiledPat
      (pyReplace fromPat fromRepl
        (pyReplace importPat importRepl (fixContentChars s))) = _
  rw [pyReplace_id_of_no_occ _ _ _ h1, pyReplace_id_of_no_occ _ _ _ h2,
    pyReplace_id_of_no_occ _ _ _ hno]

/-- C3: for every file content containing the canonical package prefix in
any of the three reference forms (plain import of a submodule, from-style
form, bare attribute-access qualifier), one application of the Mode B
rewrite leaves zero occurrences of `opencue_proto.` and makes the
relocated prefix `rqd.compiled_proto.` occur in the rewritten content. -/
theorem c3_three_forms_rewritten (s : String)
    (h : importPat <:+: s.data ∨ fromPat <:+: s.data ∨ opencueProtoPat <:+: s.data) :
    ¬ opencueProtoPat <:+: (fixRqdImportsContent s).data ∧
      rqdCompiledPat <:+: (fixRqdImportsContent s).data := by
  have hocc : opencueProtoPat <:+: s.data := by
    rcases h with h | h | h
    · exact (by decide : opencueProtoPat <:+: importPat).trans h
    · exact (by decide : opencueProtoPat <:+: fromPat).trans h
    · exact h
  exact ⟨fixContent_no_occ s.data, fixContent_relocated s.data hocc⟩

/-- Witness for C3 at a concrete stub content exercising all three forms. -/
theorem c3_witness :
    ¬ opencueProtoPat <:+:
        (fixRqdImportsContent
          "import opencue_proto.host\nfrom opencue_proto.job import Job\nx = opencue_proto.cue_pb2.Job").data ∧
      rqdCompiledPat <:+:
        (fixRqdImportsContent
          "import opencue_proto.host\nfrom opencue_proto.job import Job\nx = opencue_proto.cue_pb2.Job").data :=
  c3_three_forms_rewritten
    "import opencue_proto.host\nfrom opencue_proto.job import Job\nx = opencue_proto.cue_pb2.Job"
    (Or.inl (by decide))

/-- C4: the Mode B import rewrite (the three prefix substitutions of
`_fix_rqd_imports`) is idempotent as a text transformation: applying it
twice produces output identical to applying it once, so an
already-relocated prefix is never rewritten a second time. -/
theorem c4_rewrite_idempotent (s : String) :
    fixRqdImportsContent (fixRqdImportsContent s) = fixRqdImportsContent s := by
  show String.mk (fixContentChars (fixContentChars s.data)) = _
  rw [fixContent_idem]
  rfl

/-- C5 counterexample: the content `myopencue_proto.x`, in which the
canonical prefix occurs only as a proper substring of the larger identifier
`myopencue_proto` (preceded by the identifier characters `my`), is NOT left
unchanged by the rewrite — it becomes `myrqd.compiled_proto.x`. -/
theorem c5_counterexample :
    fixRqdImportsContent "myopencue_proto.x" = "myrqd.compiled_proto.x" ∧
      fixRqdImportsContent "myopencue_proto.x" ≠ "myopencue_proto.x" := by
  constructor
  · decide
  · decide

/-- C5 amended: the rewrite is an unanchored text substitution: every
content containing the canonical prefix — also when it is embedded inside a
larger identifier — is changed by the rewrite (no occurrence is exempt). -/
theorem c5_amended_unanchored (u v : List Char) :
    fixContentChars (u ++ opencueProtoPat ++ v) ≠ u ++ opencueProtoPat ++ v := by
  intro heq
  have hocc : opencueProtoPat <:+: u ++ opencueProtoPat ++ v := ⟨u, v, rfl⟩
  have hno := fixContent_no_occ (u ++ opencueProtoPat ++ v)
  rw [heq] at hno
  exact hno hocc


theorem lookupFile_cons (e : String × String) (d : List (String × String)) (m : String) :
    lookupFile (e :: d) m = if e.1 == m then some e.2 else lookupFile d m := by
  cases hb : (e.1 == m) <;> simp [lookupFile, List.find?_cons, hb]

theorem updateFile_cons (e : String × String) (d : List (String × String))
    (name content : String) :
    updateFile (e :: d) name content
      = (if e.1 == name then (e.1, content) else e) :: updateFile d name content := rfl

theorem lookupFile_updateFile_ne (d : List (String × String)) (name content m : String)
    (h : m ≠ name) :
    lookupFile (updateFile d name content) m = lookupFile d m := by
  induction d with
  | nil => rfl
  | cons e d ih =>
    rw [updateFile_cons, lookupFile_cons, lookupFile_cons]
    by_cases hen : e.1 = name
    · have hb : (e.1 == name) = true := by simpa using hen
      have hm : (e.1 == m) = false := by
        simp only [beq_eq_false_iff_ne, ne_eq]
        intro hh
        rw [hh] at hen
        exact h hen
      simp [hb, hm, ih]
    · have hb : (e.1 == name) = false := by simpa using hen
      cases hm : (e.1 == m) <;> simp [hb, hm, ih]

theorem lookupFile_updateFile_eq (d : List (String × String)) (name content : String) :
    lookupFile (updateFile d name content) name =
      (lookupFile d name).map (fun _ => content) := by
  induction d with
  | nil => rfl
  | cons e d ih =>
    rw [updateFile_cons, lookupFile_cons, lookupFile_cons]
    by_cases hen : e.1 = name
    · have hb : (e.1 == name) = true := by simpa using hen
      simp [hb]
    · have hb : (e.1 == name) = false := by simpa using hen
      simp [hb, ih]

theorem fixGo_frame (dirPath : String) :
    ∀ (names : List String) (d : List (String × String)) (m : String),
      m ∉ names →
      lookupFile (fixRqdImportsGo dirPath d names).1 m = lookupFile d m := by
  intro names
  induction names with
  | nil => intro d m _; rfl
  | cons name rest ih =>
    intro d m hm
    have hm1 : m ≠ name := fun h => hm (h ▸ List.mem_cons_self name rest)
    have hm2 : m ∉ rest := fun h => hm (List.mem_cons_of_mem name h)
    cases hl : lookupFile d name with
    | some content =>
      simp only [fixRqdImportsGo, hl]
      rw [ih _ m hm2, lookupFile_updateFile_ne d name _ m hm1]
    | none =>
      simp only [fixRqdImportsGo, hl]
      exact ih d m hm2

theorem fixGo_warns_missing (dirPath : String) :
    ∀ (names : List String) (d : List (String × String)) (m : String),
      m ∈ names → lookupFile d m = none →
      Event.warn ("File not found: " ++ pyPathJoin dirPath m) ∈
        (fixRqdImportsGo dirPath d names).2 := by
  intro names
  induction names with
  | nil => intro d m hm _; cases hm
  | cons name rest ih =>
    intro d m hm hnone
    by_cases hmn : m = name
    · subst hmn
      simp only [fixRqdImportsGo, hnone]
      exact List.mem_cons_self _ _
    · have hm2 : m ∈ rest := by
        rcases List.mem_cons.mp hm with h | h
        · exact absurd h hmn
        · exact h
      cases hl : lookupFile d name with
      | some content =>
        simp only [fixRqdImportsGo, hl]
        refine List.mem_cons_of_mem _ (ih _ m hm2 ?_)
        rw [lookupFile_updateFile_ne d name _ m hmn]
        exact hnone
      | none =>
        simp only [fixRqdImportsGo, hl]
        exact List.mem_cons_of_mem _ (ih d m hm2 hnone)

theorem fixGo_rewrites (dirPath : String) :
    ∀ (names : List String) (d : List (String × String)) (m content : String),
      names.Nodup → m ∈ names → lookupFile d m = some content →
      lookupFile (fixRqdImportsGo dirPath d names).1 m =
        some (fixRqdImportsContent content) := by
  intro names
  induction names with
  | nil => intro d m content _ hm _; cases hm
  | cons name rest ih =>
    intro d m content hnd hm hsome
    have hnd1 : name ∉ rest := (List.nodup_cons.mp hnd).1
    have hnd2 : rest.Nodup := (List.nodup_cons.mp hnd).2
    by_cases hmn : m = name
    · subst hmn
      simp only [fixRqdImportsGo, hsome]
      rw [fixGo_frame dirPath rest _ m hnd1, lookupFile_updateFile_eq, hsome]
      rfl
    · have hm2 : m ∈ rest := by
        rcases List.mem_cons.mp hm with h | h
        · exact absurd h hmn
        · exact h
      cases hl : lookupFile d name with
      | some c2 =>
        simp only [fixRqdImportsGo, hl]
        refine ih _ m content hnd2 hm2 ?_
        rw [lookupFile_updateFile_ne d name _ m hmn]
        exact hsome
      | none =>
        simp only [fixRqdImportsGo, hl]
        exact ih d m content hnd2 hm2 hsome

theorem fixGo_fix_event (dirPath : String) :
    ∀ (names : List String) (d : List (String × String)) (m : String),
      m ∈ names → (lookupFile d m).isSome = true →
      Event.fixFile m ∈ (fixRqdImportsGo dirPath d names).2 := by
  intro names
  induction names with
  | nil => intro d m hm _; cases hm
  | cons name rest ih =>
    intro d m hm hsome
    by_cases hmn : m = name
    · subst hmn
      cases hl : lookupFile d m with
      | some content =>
        simp only [fixRqdImportsGo, hl]
        exact List.mem_cons_self _ _
      | none => rw [hl] at hsome; cases hsome
    · have hm2 : m ∈ rest := by
        rcases List.mem_cons.mp hm with h | h
        · exact absurd h hmn
        · exact h
      cases hl : lookupFile d name with
      | some content =>
        simp only [fixRqdImportsGo, hl]
        refine List.mem_cons_of_mem _ (ih _ m hm2 ?_)
        rw [lookupFile_updateFile_ne d name _ m hmn]
        exact hsome
      | none =>
        simp only [fixRqdImportsGo, hl]
        exact List.mem_cons_of_mem _ (ih d m hm2 hsome)

theorem fixGo_events (dirPath : String) :
    ∀ (names : List String) (d : List (String × String)),
      ∀ e ∈ (fixRqdImportsGo dirPath d names).2,
        (∃ nm, e = Event.fixFile nm) ∨ (∃ msg, e = Event.warn msg) := by
  intro names
  induction names with
  | nil => intro d e he; cases he
  | cons name rest ih =>
    intro d e he
    cases hl : lookupFile d name with
    | some content =>
      rw [show (fixRqdImportsGo dirPath d (name :: rest)).2
            = Event.fixFile name
              :: (fixRqdImportsGo dirPath
                    (updateFile d name (fixRqdImportsContent content)) rest).2 from by
          simp only [fixRqdImportsGo, hl]] at he
      rcases List.mem_cons.mp he with h | h
      · exact Or.inl ⟨name, h⟩
      · exact ih _ e h
    | none =>
      rw [show (fixRqdImportsGo dirPath d (name :: rest)).2
            = Event.warn ("File not found: " ++ pyPathJoin dirPath name)
              :: (fixRqdImportsGo dirPath d rest).2 from by
          simp only [fixRqdImportsGo, hl]] at he
      rcases List.mem_cons.mp he with h | h
      · exact Or.inr ⟨_, h⟩
      · exact ih d e h

/-- C10: the Mode B rewrite (`_fix_rqd_imports`) modifies only the five
enumerated hand-written files; every other file in the directory is left
byte-identical; an enumerated file that is missing is skipped with a
`File not found` warning while the remaining enumerated files are still
rewritten. -/
theorem c10_mode_b_frame :
    (∀ (dirPath : String) (d : List (String × String)) (m : String),
       m ∉ filesToFix →
       lookupFile (fix_rqd_imports dirPath d).1 m = lookupFile d m)
  ∧ (∀ (dirPath : String) (d : List (String × String)) (m : String),
       m ∈ filesToFix → lookupFile d m = none →
       Event.warn ("File not found: " ++ pyPathJoin dirPath m) ∈
         (fix_rqd_imports dirPath d).2)
  ∧ (∀ (dirPath : String) (d : List (String × String)) (m content : String),
       m ∈ filesToFix → lookupFile d m = some content →
       lookupFile (fix_rqd_imports dirPath d).1 m =
         some (fixRqdImportsContent content)) := by
  refine ⟨?_, ?_, ?_⟩
  · intro dirPath d m hm
    exact fixGo_frame dirPath filesToFix d m hm
  · intro dirPath d m hm hnone
    exact fixGo_warns_missing dirPath filesToFix d m hm hnone
  · intro dirPath d m content hm hsome
    exact fixGo_rewrites dirPath filesToFix d m content (by decide) hm hsome

/-- Witness for C10 on a concrete directory: `extra.py` is untouched,
missing `rqmachine.py` produces a warning, present `rqcore.py` is
rewritten. -/
theorem c10_witness :
    lookupFile
        (fix_rqd_imports "/b/rqd"
          [("rqcore.py", "import opencue_proto.job"), ("extra.py", "keep")]).1
        "extra.py" = some "keep" ∧
      Event.warn "File not found: /b/rqd/rqmachine.py" ∈
        (fix_rqd_imports "/b/rqd"
          [("rqcore.py", "import opencue_proto.job"), ("extra.py", "keep")]).2 ∧
      lookupFile
        (fix_rqd_imports "/b/rqd"
          [("rqcore.py", "import opencue_proto.job"), ("extra.py", "keep")]).1
        "rqcore.py" = some (fixRqdImportsContent "import opencue_proto.job") :=
  ⟨c10_mode_b_frame.1 "/b/rqd" _ "extra.py" (by decide),
   c10_mode_b_frame.2.1 "/b/rqd" _ "rqmachine.py" (by decide) (by decide),
   c10_mode_b_frame.2.2 "/b/rqd" _ "rqcore.py" "import opencue_proto.job"
     (by decide) (by decide)⟩

theorem protoStages_no_src (env : ProtoEnv) (h : env.protoSrcExists = false) :
    protoStages env = ([], some ("Proto source not found at " ++ env.protoSrcPath)) := by
  simp [protoStages, h]

theorem protoStages_no_protos (env : ProtoEnv) (h1 : env.protoSrcExists = true)
    (h2 : (discoveredProtos env).isEmpty = true) :
    protoStages env
      = ([Event.clearOutputDir],
         some "No .proto files found in proto source directory") := by
  rw [show (discoveredProtos env).isEmpty = true ↔
        (env.protoSrcFiles.filter (fun f => pyEndsWith f ".proto")).isEmpty = true from
      Iff.rfl] at h2
  simp [protoStages, h1, h2]

theorem protoStages_protoc_fails (env : ProtoEnv) (h1 : env.protoSrcExists = true)
    (h2 : (discoveredProtos env).isEmpty = false) (h3 : env.protocExitCode ≠ 0) :
    protoStages env
      = ([Event.clearOutputDir, Event.runProtoc (protocCmd env (discoveredProtos env)),
          Event.logError ("Failed to compile proto files: "
            ++ pyCPEStr (protocCmd env (discoveredProtos env)) env.protocExitCode),
          Event.logError ("stdout: " ++ env.protocStdout),
          Event.logError ("stderr: " ++ env.protocStderr)],
         some ("Proto compilation failed: "
           ++ pyCPEStr (protocCmd env (discoveredProtos env)) env.protocExitCode)) := by
  simp [protoStages, h1, discoveredProtos] at h2 ⊢
  simp [h2, h3, discoveredProtos]

theorem protoStages_fix_fails (env : ProtoEnv) (h1 : env.protoSrcExists = true)
    (h2 : (discoveredProtos env).isEmpty = false) (h3 : env.protocExitCode = 0)
    (h4 : env.fixScriptExists = true) (h5 : env.fixScriptExitCode ≠ 0) :
    protoStages env
      = ([Event.clearOutputDir, Event.runProtoc (protocCmd env (discoveredProtos env)),
          Event.runFixScript (fixScriptCmd env),
          Event.logError ("Failed to fix proto imports: "
            ++ pyCPEStr (fixScriptCmd env) env.fixScriptExitCode),
          Event.logError ("stdout: " ++ env.fixScriptStdout),
          Event.logError ("stderr: " ++ env.fixScriptStderr)],
         some ("Proto import fixing failed: "
           ++ pyCPEStr (fixScriptCmd env) env.fixScriptExitCode)) := by
  simp [protoStages, h1, discoveredProtos] at h2 ⊢
  simp [h2, h3, h4, h5, discoveredProtos]

theorem protoStages_ok (env : ProtoEnv) (h : reachesNormStage env) :
    protoStages env
      = ([Event.clearOutputDir, Event.runProtoc (protocCmd env (discoveredProtos env))]
          ++ fixStepEvents env ++ normStepEvents env, none) := by
  obtain ⟨⟨h1, h2, h3⟩, h4⟩ := h
  simp [discoveredProtos] at h2
  cases hf : env.fixScriptExists with
  | true =>
    have h5 := h4 hf
    simp [protoStages, h1, h2, h3, hf, h5, fixStepEvents, normStepEvents, discoveredProtos]
  | false =>
    simp [protoStages, h1, h2, h3, hf, fixStepEvents, normStepEvents, discoveredProtos]

/-- If no `P`-event lies in `b` and no `Q`-event lies in `a`, then in
`a ++ b` every `P`-event precedes every `Q`-event. -/
theorem evBefore_append (a b : List Event) (pSel qSel : Event → Bool)
    (hPb : ∀ e ∈ b, pSel e = false) (hQa : ∀ e ∈ a, qSel e = false) :
    EvBefore pSel qSel (a ++ b) := by
  intro i j ei ej hi hPi hj hQj
  rcases Nat.lt_or_ge i a.length with hia | hia
  · rcases Nat.lt_or_ge j a.length with hja | hja
    · exfalso
      rw [List.getElem?_append_left hja] at hj
      rw [hQa ej (List.getElem?_mem hj)] at hQj
      cases hQj
    · rcases Nat.lt_or_ge j a.length with h | h
      · omega
      · omega
  · exfalso
    rw [List.getElem?_append_right hia] at hi
    rw [hPb ei (List.getElem?_mem hi)] at hPi
    cases hPi

/-- Splitting form of `evBefore_append`, convenient for re-associating. -/
theorem evBefore_of_split (l : List Event) (a b : List Event) (pSel qSel : Event → Bool)
    (hsplit : l = a ++ b)
    (hPb : ∀ e ∈ b, pSel e = false) (hQa : ∀ e ∈ a, qSel e = false) :
    EvBefore pSel qSel l :=
  hsplit ▸ evBefore_append a b pSel qSel hPb hQa

theorem fixStepEvents_shape (env : ProtoEnv) :
    ∀ e ∈ fixStepEvents env,
      (∃ c, e = Event.runFixScript c) ∨ (∃ m, e = Event.warn m) := by
  intro e he
  unfold fixStepEvents at he
  cases hf : env.fixScriptExists <;> rw [hf] at he <;> simp at he <;> rw [he]
  · exact Or.inr ⟨_, rfl⟩
  · exact Or.inl ⟨_, rfl⟩

theorem normStepEvents_shape (env : ProtoEnv) :
    ∀ e ∈ normStepEvents env,
      (∃ c, e = Event.runNormalizer c) ∨ (∃ m, e = Event.warn m) := by
  intro e he
  unfold normStepEvents at he
  by_cases hemp : (env.compiledDirFiles.filter (fun f => pyEndsWith f ".py")).isEmpty
  · rw [if_pos hemp] at he
    simp at he
    exact Or.inr ⟨_, he⟩
  · rw [if_neg hemp] at he
    cases hn : env.normOutcome <;> rw [hn] at he <;> simp at he
    · exact Or.inl ⟨_, he⟩
    · rcases he with he | he
      · exact Or.inl ⟨_, he⟩
      · exact Or.inr ⟨_, he⟩
    · exact Or.inr ⟨_, he⟩

theorem rqdBuild_err (env : RqdEnv) (evs : List Event) (e : String)
    (h : protoStages env.proto = (evs, some e)) :
    rqdBuild env = (evs, some e) := by
  simp [rqdBuild, h]

theorem rqdBuild_ok (env : RqdEnv) (h : reachesNormStage env.proto) :
    rqdBuild env
      = (([Event.clearOutputDir,
           Event.runProtoc (protocCmd env.proto (discoveredProtos env.proto))]
          ++ fixStepEvents env.proto ++ normStepEvents env.proto)
          ++ [Event.copyRqdTree]
          ++ (fix_rqd_imports env.rqdDestPath env.rqdFiles).2
          ++ [Event.createRqdExecutable], none) := by
  simp [rqdBuild, protoStages_ok env.proto h]

theorem pycueBuild_err (env : PycueEnv) (evs : List Event) (e : String)
    (h : protoStages env.proto = (evs, some e)) :
    pycueBuild env = (evs, some e) := by
  simp [pycueBuild, h]

theorem pycueBuild_ok (env : PycueEnv) (h : reachesNormStage env.proto) :
    pycueBuild env
      = (([Event.clearOutputDir,
           Event.runProtoc (protocCmd env.proto (discoveredProtos env.proto))]
          ++ fixStepEvents env.proto ++ normStepEvents env.proto)
          ++ (env.sourceEntries.filter (fun n => n ≠ "build")).map Event.copyEntry,
         none) := by
  simp [pycueBuild, protoStages_ok env.proto h]

theorem protoStages_ok_iff (env : ProtoEnv) :
    (protoStages env).2 = none ↔ reachesNormStage env := by
  constructor
  · intro h
    by_cases h1 : env.protoSrcExists = true
    · by_cases h2 : (discoveredProtos env).isEmpty = true
      · rw [protoStages_no_protos env h1 h2] at h
        cases h
      · have h2f : (discoveredProtos env).isEmpty = false := by
          simpa using h2
        by_cases h3 : env.protocExitCode = 0
        · by_cases h4 : env.fixScriptExists = true
          · by_cases h5 : env.fixScriptExitCode = 0
            · exact ⟨⟨h1, h2f, h3⟩, fun _ => h5⟩
            · rw [protoStages_fix_fails env h1 h2f h3 h4 h5] at h
              cases h
          · exact ⟨⟨h1, h2f, h3⟩, fun hf => absurd hf h4⟩
        · rw [protoStages_protoc_fails env h1 h2f h3] at h
          cases h
    · rw [protoStages_no_src env (by simpa using h1)] at h
      cases h
  · intro h
    rw [protoStages_ok env h]

theorem rqdBuild_snd (env : RqdEnv) : (rqdBuild env).2 = (protoStages env.proto).2 := by
  unfold rqdBuild
  cases hps : protoStages env.proto with
  | mk evs err =>
    cases err <;> simp

theorem pycueBuild_snd (env : PycueEnv) :
    (pycueBuild env).2 = (protoStages env.proto).2 := by
  unfold pycueBuild
  cases hps : protoStages env.proto with
  | mk evs err =>
    cases err <;> simp

theorem rqdBuild_ok_iff (env : RqdEnv) :
    (rqdBuild env).2 = none ↔ reachesNormStage env.proto := by
  rw [rqdBuild_snd]
  exact protoStages_ok_iff env.proto

theorem pycueBuild_ok_iff (env : PycueEnv) :
    (pycueBuild env).2 = none ↔ reachesNormStage env.proto := by
  rw [pycueBuild_snd]
  exact protoStages_ok_iff env.proto

/-- C6: if the proto source directory exists but contains zero `.proto`
files, both builds fail fast with the input-missing `TestError` and launch
no subprocess; a missing proto source directory is likewise fatal with no
subprocess launched. -/
theorem c6_input_missing_fatal :
    (∀ env : RqdEnv, env.proto.protoSrcExists = true →
       (discoveredProtos env.proto).isEmpty = true →
       (rqdBuild env).2 = some "No .proto files found in proto source directory" ∧
         ∀ e ∈ (rqdBuild env).1, isSubprocessEvent e = false)
  ∧ (∀ env : RqdEnv, env.proto.protoSrcExists = false →
       (rqdBuild env).2 = some ("Proto source not found at " ++ env.proto.protoSrcPath) ∧
         ∀ e ∈ (rqdBuild env).1, isSubprocessEvent e = false)
  ∧ (∀ env : PycueEnv, env.proto.protoSrcExists = true →
       (discoveredProtos env.proto).isEmpty = true →
       (pycueBuild env).2 = some "No .proto files found in proto source directory" ∧
         ∀ e ∈ (pycueBuild env).1, isSubprocessEvent e = false)
  ∧ (∀ env : PycueEnv, env.proto.protoSrcExists = false →
       (pycueBuild env).2 = some ("Proto source not found at " ++ env.proto.protoSrcPath) ∧
         ∀ e ∈ (pycueBuild env).1, isSubprocessEvent e = false) := by
  refine ⟨?_, ?_, ?_, ?_⟩
  · intro env h1 h2
    rw [rqdBuild_err env _ _ (protoStages_no_protos env.proto h1 h2)]
    exact ⟨rfl, by decide⟩
  · intro env h1
    rw [rqdBuild_err env _ _ (protoStages_no_src env.proto h1)]
    exact ⟨rfl, fun e he => by simp at he⟩
  · intro env h1 h2
    rw [pycueBuild_err env _ _ (protoStages_no_protos env.proto h1 h2)]
    exact ⟨rfl, by decide⟩
  · intro env h1
    rw [pycueBuild_err env _ _ (protoStages_no_src env.proto h1)]
    exact ⟨rfl, fun e he => by simp at he⟩

/-- Witness for C6 at concrete environments whose source directory holds
only `README.md`. -/
theorem c6_witness :
    (rqdBuild envNoProtosRqd).2 = some "No .proto files found in proto source directory" ∧
      (pycueBuild envNoProtosPycue).2 = some "No .proto files found in proto source directory" ∧
      (rqdBuild envNoProtosRqd).1.any isSubprocessEvent = false :=
  ⟨(c6_input_missing_fatal.1 envNoProtosRqd (by decide) (by decide)).1,
   (c6_input_missing_fatal.2.2.1 envNoProtosPycue (by decide) (by decide)).1,
   by decide⟩

set_option maxRecDepth 8192 in
/-- C1 counterexample: in a run in which `fix_compiled_proto.py` exists and
exits with status 1 the pipeline does NOT continue with a warning: it
aborts with the fatal `TestError` below. -/
theorem c1_counterexample :
    (rqdBuild envFixFailRqd).2
      = some "Proto import fixing failed: Command '['python3', '/repo/proto/fix_compiled_proto.py', '/build/rqd/compiled_proto']' returned non-zero exit status 1." ∧
      (rqdBuild envFixFailRqd).2 ≠ none := by
  exact ⟨by decide, by decide⟩

/-- C1 amended: if the fix-imports script is absent, the build logs a
warning and continues (and succeeds, normalization being best-effort); if
the script exists but exits non-zero, the build aborts with the fatal
`Proto import fixing failed` error.  Both builds behave identically. -/
theorem c1_amended_fix_script_policy :
    (∀ env : RqdEnv, reachesFixStage env.proto → env.proto.fixScriptExists = true →
       env.proto.fixScriptExitCode ≠ 0 →
       (rqdBuild env).2 = some ("Proto import fixing failed: "
         ++ pyCPEStr (fixScriptCmd env.proto) env.proto.fixScriptExitCode))
  ∧ (∀ env : RqdEnv, reachesFixStage env.proto → env.proto.fixScriptExists = false →
       (rqdBuild env).2 = none ∧
         Event.warn ("fix_compiled_proto.py not found at " ++ env.proto.fixScriptPath)
           ∈ (rqdBuild env).1)
  ∧ (∀ env : PycueEnv, reachesFixStage env.proto → env.proto.fixScriptExists = true →
       env.proto.fixScriptExitCode ≠ 0 →
       (pycueBuild env).2 = some ("Proto import fixing failed: "
         ++ pyCPEStr (fixScriptCmd env.proto) env.proto.fixScriptExitCode))
  ∧ (∀ env : PycueEnv, reachesFixStage env.proto → env.proto.fixScriptExists = false →
       (pycueBuild env).2 = none ∧
         Event.warn ("fix_compiled_proto.py not found at " ++ env.proto.fixScriptPath)
           ∈ (pycueBuild env).1) := by
  refine ⟨?_, ?_, ?_, ?_⟩
  · intro env h hf hc
    rw [rqdBuild_err env _ _ (protoStages_fix_fails env.proto h.1 h.2.1 h.2.2 hf hc)]
  · intro env h hf
    have hn : reachesNormStage env.proto := ⟨h, fun hx => absurd hx (by simp [hf])⟩
    rw [rqdBuild_ok env hn]
    refine ⟨rfl, ?_⟩
    have hmem : Event.warn ("fix_compiled_proto.py not found at " ++ env.proto.fixScriptPath)
        ∈ fixStepEvents env.proto := by
      unfold fixStepEvents
      rw [hf]
      simp
    simp only [List.append_assoc, List.mem_append]
    exact Or.inr (Or.inl hmem)
  · intro env h hf hc
    rw [pycueBuild_err env _ _ (protoStages_fix_fails env.proto h.1 h.2.1 h.2.2 hf hc)]
  · intro env h hf
    have hn : reachesNormStage env.proto := ⟨h, fun hx => absurd hx (by simp [hf])⟩
    rw [pycueBuild_ok env hn]
    refine ⟨rfl, ?_⟩
    have hmem : Event.warn ("fix_compiled_proto.py not found at " ++ env.proto.fixScriptPath)
        ∈ fixStepEvents env.proto := by
      unfold fixStepEvents
      rw [hf]
      simp
    simp only [List.append_assoc, List.mem_append]
    exact Or.inr (Or.inl hmem)

/-- Witness for the amended C1 at the concrete failing environment. -/
theorem c1_witness :
    (rqdBuild envFixFailRqd).2 = some ("Proto import fixing failed: "
      ++ pyCPEStr (fixScriptCmd envFixFailRqd.proto) envFixFailRqd.proto.fixScriptExitCode) :=
  c1_amended_fix_script_policy.1 envFixFailRqd ⟨by decide, by decide, by decide⟩
    (by decide) (by decide)

set_option maxRecDepth 8192 in
/-- C7 counterexample: with compiler stderr `PROTOC_STDERR_XYZ`, the raised
build error is exactly the message below, which does NOT contain the
captured stderr text (stderr only reaches the log). -/
theorem c7_counterexample :
    (rqdBuild envProtocFailRqd).2
      = some "Proto compilation failed: Command '['python3', '-m', 'grpc_tools.protoc', '-I=.', '--python_out=/build/rqd/compiled_proto', '--grpc_python_out=/build/rqd/compiled_proto', 'job.proto']' returned non-zero exit status 1." ∧
      ¬ (envProtocFailRqd.proto.protocStderr.data
          <:+: "Proto compilation failed: Command '['python3', '-m', 'grpc_tools.protoc', '-I=.', '--python_out=/build/rqd/compiled_proto', '--grpc_python_out=/build/rqd/compiled_proto', 'job.proto']' returned non-zero exit status 1.".data) := by
  exact ⟨by decide, by decide⟩

/-- C7 amended: on a non-zero stub-compiler exit the build aborts
immediately: the whole trace is clear, compile, three `logger.error` lines
(the last carrying the captured stderr) — no rewriter and no normalizer is
attempted — and the raised error message names the compiler command and
exit status (the stderr text reaches the log, not the raised error). -/
theorem c7_amended_compiler_failure :
    (∀ env : RqdEnv, env.proto.protoSrcExists = true →
       (discoveredProtos env.proto).isEmpty = false → env.proto.protocExitCode ≠ 0 →
       rqdBuild env
         = ([Event.clearOutputDir,
             Event.runProtoc (protocCmd env.proto (discoveredProtos env.proto)),
             Event.logError ("Failed to compile proto files: "
               ++ pyCPEStr (protocCmd env.proto (discoveredProtos env.proto))
                    env.proto.protocExitCode),
             Event.logError ("stdout: " ++ env.proto.protocStdout),
             Event.logError ("stderr: " ++ env.proto.protocStderr)],
            some ("Proto compilation failed: "
              ++ pyCPEStr (protocCmd env.proto (discoveredProtos env.proto))
                   env.proto.protocExitCode)))
  ∧ (∀ env : PycueEnv, env.proto.protoSrcExists = true →
       (discoveredProtos env.proto).isEmpty = false → env.proto.protocExitCode ≠ 0 →
       pycueBuild env
         = ([Event.clearOutputDir,
             Event.runProtoc (protocCmd env.proto (discoveredProtos env.proto)),
             Event.logError ("Failed to compile proto files: "
               ++ pyCPEStr (protocCmd env.proto (discoveredProtos env.proto))
                    env.proto.protocExitCode),
             Event.logError ("stdout: " ++ env.proto.protocStdout),
             Event.logError ("stderr: " ++ env.proto.protocStderr)],
            some ("Proto compilation failed: "
              ++ pyCPEStr (protocCmd env.proto (discoveredProtos env.proto))
                   env.proto.protocExitCode))) := by
  constructor
  · intro env h1 h2 h3
    exact rqdBuild_err env _ _ (protoStages_protoc_fails env.proto h1 h2 h3)
  · intro env h1 h2 h3
    exact pycueBuild_err env _ _ (protoStages_protoc_fails env.proto h1 h2 h3)

/-- Witness for the amended C7 at the concrete failing environment. -/
theorem c7_witness :
    rqdBuild envProtocFailRqd
      = ([Event.clearOutputDir,
          Event.runProtoc (protocCmd envProtocFailRqd.proto
            (discoveredProtos envProtocFailRqd.proto)),
          Event.logError ("Failed to compile proto files: "
            ++ pyCPEStr (protocCmd envProtocFailRqd.proto
                 (discoveredProtos envProtocFailRqd.proto))
                 envProtocFailRqd.proto.protocExitCode),
          Event.logError ("stdout: " ++ envProtocFailRqd.proto.protocStdout),
          Event.logError ("stderr: " ++ envProtocFailRqd.proto.protocStderr)],
         some ("Proto compilation failed: "
           ++ pyCPEStr (protocCmd envProtocFailRqd.proto
                (discoveredProtos envProtocFailRqd.proto))
                envProtocFailRqd.proto.protocExitCode)) :=
  c7_amended_compiler_failure.1 envProtocFailRqd (by decide) (by decide) (by decide)

theorem fixStepEvents_flags (env : ProtoEnv) :
    ∀ e ∈ fixStepEvents env,
      isRunProtoc e = false ∧ isRunNormalizer e = false ∧ isFixFile e = false := by
  intro e he
  rcases fixStepEvents_shape env e he with ⟨c, rfl⟩ | ⟨m, rfl⟩ <;> exact ⟨rfl, rfl, rfl⟩

theorem normStepEvents_flags (env : ProtoEnv) :
    ∀ e ∈ normStepEvents env,
      isRunProtoc e = false ∧ isRunFixScript e = false ∧ isFixFile e = false := by
  intro e he
  rcases normStepEvents_shape env e he with ⟨c, rfl⟩ | ⟨m, rfl⟩ <;> exact ⟨rfl, rfl, rfl⟩

theorem modeBEvents_flags (dirPath : String) (d : List (String × String)) :
    ∀ e ∈ (fix_rqd_imports dirPath d).2,
      isRunProtoc e = false ∧ isRunFixScript e = false ∧ isRunNormalizer e = false := by
  intro e he
  rcases fixGo_events dirPath filesToFix d e he with ⟨nm, rfl⟩ | ⟨m, rfl⟩ <;>
    exact ⟨rfl, rfl, rfl⟩

/-- C2 counterexample: `envOkRqd` is a successful rqd build run in which
the 2to3 syntax normalizer (trace index 3) runs BEFORE the Mode B rewrite
of `rqcore.py` (trace index 5), so normalization is not last and does run
before a rewrite mode. -/
theorem c2_counterexample :
    (rqdBuild envOkRqd).2 = none ∧
      (rqdBuild envOkRqd).1[3]?
        = some (Event.runNormalizer ["2to3", "-w", "-n", "job_pb2.py"]) ∧
      (rqdBuild envOkRqd).1[5]? = some (Event.fixFile "rqcore.py") ∧
      ¬ EvBefore isFixFile isRunNormalizer (rqdBuild envOkRqd).1 := by
  refine ⟨by decide, by decide, by decide, ?_⟩
  intro h
  have := h 5 3 (Event.fixFile "rqcore.py")
    (Event.runNormalizer ["2to3", "-w", "-n", "job_pb2.py"])
    (by decide) (by decide) (by decide) (by decide)
  omega

/-- C2 amended: in every successful build run the stages are ordered
discover, compile, Mode A rewrite (fix script), syntax normalization, and —
in the rqd build only — the Mode B rewrite after normalization: the
compiler precedes the fix script, the fix script precedes the normalizer,
and (rqd) every Mode B file rewrite comes after the normalizer, not before
it. -/
theorem c2_amended_stage_order :
    (∀ env : RqdEnv, (rqdBuild env).2 = none →
       EvBefore isRunProtoc isRunFixScript (rqdBuild env).1 ∧
       EvBefore isRunFixScript isRunNormalizer (rqdBuild env).1 ∧
       EvBefore isRunProtoc isRunNormalizer (rqdBuild env).1 ∧
       EvBefore isRunNormalizer isFixFile (rqdBuild env).1)
  ∧ (∀ env : PycueEnv, (pycueBuild env).2 = none →
       EvBefore isRunProtoc isRunFixScript (pycueBuild env).1 ∧
       EvBefore isRunFixScript isRunNormalizer (pycueBuild env).1) := by
  constructor
  · intro env h
    have hn := (rqdBuild_ok_iff env).mp h
    have hfixE := fixStepEvents_flags env.proto
    have hnormE := normStepEvents_flags env.proto
    have hmodeB := modeBEvents_flags env.rqdDestPath env.rqdFiles
    rw [rqdBuild_ok env hn]
    refine ⟨?_, ?_, ?_, ?_⟩
    · refine evBefore_of_split _
        [Event.clearOutputDir,
         Event.runProtoc (protocCmd env.proto (discoveredProtos env.proto))]
        (fixStepEvents env.proto ++ (normStepEvents env.proto ++ ([Event.copyRqdTree]
          ++ ((fix_rqd_imports env.rqdDestPath env.rqdFiles).2
              ++ [Event.createRqdExecutable])))) _ _
        (by simp [List.append_assoc]) ?_ ?_
      · intro e he
        rcases List.mem_append.mp he with h1 | he
        · exact (hfixE e h1).1
        rcases List.mem_append.mp he with h1 | he
        · exact (hnormE e h1).1
        rcases List.mem_append.mp he with h1 | he
        · simp at h1; rw [h1]; rfl
        rcases List.mem_append.mp he with h1 | he
        · exact (hmodeB e h1).1
        · simp at he; rw [he]; rfl
      · intro e he
        rcases List.mem_cons.mp he with h1 | he
        · rw [h1]; rfl
        · simp at he; rw [he]; rfl
    · refine evBefore_of_split _
        ([Event.clearOutputDir,
          Event.runProtoc (protocCmd env.proto (discoveredProtos env.proto))]
          ++ fixStepEvents env.proto)
        (normStepEvents env.proto ++ ([Event.copyRqdTree]
          ++ ((fix_rqd_imports env.rqdDestPath env.rqdFiles).2
              ++ [Event.createRqdExecutable]))) _ _
        (by simp [List.append_assoc]) ?_ ?_
      · intro e he
        rcases List.mem_append.mp he with h1 | he
        · exact (hnormE e h1).2.1
        rcases List.mem_append.mp he with h1 | he
        · simp at h1; rw [h1]; rfl
        rcases List.mem_append.mp he with h1 | he
        · exact (hmodeB e h1).2.1
        · simp at he; rw [he]; rfl
      · intro e he
        rcases List.mem_append.mp he with h1 | he
        · rcases List.mem_cons.mp h1 with h2 | h2
          · rw [h2]; rfl
          · simp at h2; rw [h2]; rfl
        · exact (hfixE e he).2.1
    · refine evBefore_of_split _
        [Event.clearOutputDir,
         Event.runProtoc (protocCmd env.proto (discoveredProtos env.proto))]
        (fixStepEvents env.proto ++ (normStepEvents env.proto ++ ([Event.copyRqdTree]
          ++ ((fix_rqd_imports env.rqdDestPath env.rqdFiles).2
              ++ [Event.createRqdExecutable])))) _ _
        (by simp [List.append_assoc]) ?_ ?_
      · intro e he
        rcases List.mem_append.mp he with h1 | he
        · exact (hfixE e h1).1
        rcases List.mem_append.mp he with h1 | he
        · exact (hnormE e h1).1
        rcases List.mem_append.mp he with h1 | he
        · simp at h1; rw [h1]; rfl
        rcases List.mem_append.mp he with h1 | he
        · exact (hmodeB e h1).1
        · simp at he; rw [he]; rfl
      · intro e he
        rcases List.mem_cons.mp he with h1 | he
        · rw [h1]; rfl
        · simp at he; rw [he]; rfl
    · refine evBefore_of_split _
        (([Event.clearOutputDir,
           Event.runProtoc (protocCmd env.proto (discoveredProtos env.proto))]
          ++ fixStepEvents env.proto) ++ normStepEvents env.proto)
        ([Event.copyRqdTree]
          ++ ((fix_rqd_imports env.rqdDestPath env.rqdFiles).2
              ++ [Event.createRqdExecutable])) _ _
        (by simp [List.append_assoc]) ?_ ?_
      · intro e he
        rcases List.mem_append.mp he with h1 | he
        · simp at h1; rw [h1]; rfl
        rcases List.mem_append.mp he with h1 | he
        · exact (hmodeB e h1).2.2
        · simp at he; rw [he]; rfl
      · intro e he
        rcases List.mem_append.mp he with h1 | he
        · rcases List.mem_append.mp h1 with h2 | h2
          · rcases List.mem_cons.mp h2 with h3 | h3
            · rw [h3]; rfl
            · simp at h3; rw [h3]; rfl
          · exact (hfixE e h2).2.2
        · exact (hnormE e he).2.2
  · intro env h
    have hn := (pycueBuild_ok_iff env).mp h
    have hfixE := fixStepEvents_flags env.proto
    have hnormE := normStepEvents_flags env.proto
    rw [pycueBuild_ok env hn]
    have hcopy : ∀ e ∈ (env.sourceEntries.filter (fun n => n ≠ "build")).map Event.copyEntry,
        isRunProtoc e = false ∧ isRunFixScript e = false ∧ isRunNormalizer e = false := by
      intro e he
      rcases List.mem_map.mp he with ⟨n, _, rfl⟩
      exact ⟨rfl, rfl, rfl⟩
    refine ⟨?_, ?_⟩
    · refine evBefore_of_split _
        [Event.clearOutputDir,
         Event.runProtoc (protocCmd env.proto (discoveredProtos env.proto))]
        (fixStepEvents env.proto ++ (normStepEvents env.proto
          ++ (env.sourceEntries.filter (fun n => n ≠ "build")).map Event.copyEntry)) _ _
        (by simp [List.append_assoc]) ?_ ?_
      · intro e he
        rcases List.mem_append.mp he with h1 | he
        · exact (hfixE e h1).1
        rcases List.mem_append.mp he with h1 | he
        · exact (hnormE e h1).1
        · exact (hcopy e he).1
      · intro e he
        rcases List.mem_cons.mp he with h1 | he
        · rw [h1]; rfl
        · simp at he; rw [he]; rfl
    · refine evBefore_of_split _
        ([Event.clearOutputDir,
          Event.runProtoc (protocCmd env.proto (discoveredProtos env.proto))]
          ++ fixStepEvents env.proto)
        (normStepEvents env.proto
          ++ (env.sourceEntries.filter (fun n => n ≠ "build")).map Event.copyEntry) _ _
        (by simp [List.append_assoc]) ?_ ?_
      · intro e he
        rcases List.mem_append.mp he with h1 | he
        · exact (hnormE e h1).2.1
        · exact (hcopy e he).2.1
      · intro e he
        rcases List.mem_append.mp he with h1 | he
        · rcases List.mem_cons.mp h1 with h2 | h2
          · rw [h2]; rfl
          · simp at h2; rw [h2]; rfl
        · exact (hfixE e he).2.1

/-- Witness for the amended C2 at the successful run `envOkRqd`. -/
theorem c2_witness :
    EvBefore isRunProtoc isRunFixScript (rqdBuild envOkRqd).1 ∧
      EvBefore isRunNormalizer isFixFile (rqdBuild envOkRqd).1 :=
  ⟨((c2_amended_stage_order.1 envOkRqd (by decide)).1 : _),
   ((c2_amended_stage_order.1 envOkRqd (by decide)).2.2.2 : _)⟩

/-- C8: whenever the stub compiler is launched, the first two events of the
run are exactly clear-output-dir followed by the compiler launch; hence for
ANY prior contents of the output directory, its state after the compile
step is exactly the freshly generated file set — no stale stub survives. -/
theorem c8_clear_before_compile :
    (∀ env : RqdEnv, (rqdBuild env).1.any isRunProtoc = true →
       (rqdBuild env).1.take 2
           = [Event.clearOutputDir,
              Event.runProtoc (protocCmd env.proto (discoveredProtos env.proto))] ∧
         ∀ gen d0 : List (String × String),
           ((rqdBuild env).1.take 2).foldl (applyDirEvent gen) d0 = gen)
  ∧ (∀ env : PycueEnv, (pycueBuild env).1.any isRunProtoc = true →
       (pycueBuild env).1.take 2
           = [Event.clearOutputDir,
              Event.runProtoc (protocCmd env.proto (discoveredProtos env.proto))] ∧
         ∀ gen d0 : List (String × String),
           ((pycueBuild env).1.take 2).foldl (applyDirEvent gen) d0 = gen) := by
  have key : ∀ (cmdArgs : List String) (gen d0 : List (String × String)),
      List.foldl (applyDirEvent gen) d0
        [Event.clearOutputDir, Event.runProtoc cmdArgs] = gen := by
    intro cmdArgs gen d0
    simp [List.foldl, applyDirEvent]
  constructor
  · intro env hany
    have htake : (rqdBuild env).1.take 2
        = [Event.clearOutputDir,
           Event.runProtoc (protocCmd env.proto (discoveredProtos env.proto))] := by
      by_cases h1 : env.proto.protoSrcExists = true
      · by_cases h2 : (discoveredProtos env.proto).isEmpty = true
        · rw [rqdBuild_err env _ _ (protoStages_no_protos env.proto h1 h2)] at hany
          exact Bool.noConfusion hany
        · have h2f : (discoveredProtos env.proto).isEmpty = false := by simpa using h2
          by_cases h3 : env.proto.protocExitCode = 0
          · by_cases h4 : env.proto.fixScriptExists = true
            · by_cases h5 : env.proto.fixScriptExitCode = 0
              · rw [rqdBuild_ok env ⟨⟨h1, h2f, h3⟩, fun _ => h5⟩]
                rfl
              · rw [rqdBuild_err env _ _
                  (protoStages_fix_fails env.proto h1 h2f h3 h4 h5)]
                rfl
            · rw [rqdBuild_ok env ⟨⟨h1, h2f, h3⟩, fun hf => absurd hf h4⟩]
              rfl
          · rw [rqdBuild_err env _ _ (protoStages_protoc_fails env.proto h1 h2f h3)]
            rfl
      · rw [rqdBuild_err env _ _ (protoStages_no_src env.proto (by simpa using h1))] at hany
        exact Bool.noConfusion hany
    exact ⟨htake, fun gen d0 => by rw [htake]; exact key _ gen d0⟩
  · intro env hany
    have htake : (pycueBuild env).1.take 2
        = [Event.clearOutputDir,
           Event.runProtoc (protocCmd env.proto (discoveredProtos env.proto))] := by
      by_cases h1 : env.proto.protoSrcExists = true
      · by_cases h2 : (discoveredProtos env.proto).isEmpty = true
        · rw [pycueBuild_err env _ _ (protoStages_no_protos env.proto h1 h2)] at hany
          exact Bool.noConfusion hany
        · have h2f : (discoveredProtos env.proto).isEmpty = false := by simpa using h2
          by_cases h3 : env.proto.protocExitCode = 0
          · by_cases h4 : env.proto.fixScriptExists = true
            · by_cases h5 : env.proto.fixScriptExitCode = 0
              · rw [pycueBuild_ok env ⟨⟨h1, h2f, h3⟩, fun _ => h5⟩]
                rfl
              · rw [pycueBuild_err env _ _
                  (protoStages_fix_fails env.proto h1 h2f h3 h4 h5)]
                rfl
            · rw [pycueBuild_ok env ⟨⟨h1, h2f, h3⟩, fun hf => absurd hf h4⟩]
              rfl
          · rw [pycueBuild_err env _ _ (protoStages_protoc_fails env.proto h1 h2f h3)]
            rfl
      · rw [pycueBuild_err env _ _ (protoStages_no_src env.proto (by simpa using h1))] at hany
        exact Bool.noConfusion hany
    exact ⟨htake, fun gen d0 => by rw [htake]; exact key _ gen d0⟩

/-- Witness for C8 on the successful run, with a stale file in the output
directory that does not survive. -/
theorem c8_witness :
    (rqdBuild envOkRqd).1.take 2
        = [Event.clearOutputDir,
           Event.runProtoc (protocCmd envOkRqd.proto (discoveredProtos envOkRqd.proto))] ∧
      ((rqdBuild envOkRqd).1.take 2).foldl
          (applyDirEvent [("job_pb2.py", "GEN")]) [("stale_pb2.py", "OLD")]
        = [("job_pb2.py", "GEN")] :=
  ⟨(c8_clear_before_compile.1 envOkRqd (by decide)).1,
   (c8_clear_before_compile.1 envOkRqd (by decide)).2
     [("job_pb2.py", "GEN")] [("stale_pb2.py", "OLD")]⟩

/-- C9: once the build reaches the 2to3 stage it always succeeds — the
normalizer outcome (tool missing or non-zero exit) never fails the build —
and the failure modes leave the corresponding warnings in the log. -/
theorem c9_normalizer_non_fatal :
    (∀ env : RqdEnv, reachesNormStage env.proto →
       (rqdBuild env).2 = none ∧
       ((env.proto.compiledDirFiles.filter (fun f => pyEndsWith f ".py")).isEmpty = false →
         (∀ code, env.proto.normOutcome = NormOutcome.calledProcessError code →
            Event.warn ("2to3 conversion failed or not needed: "
              ++ pyCPEStr (["2to3", "-w", "-n"]
                   ++ env.proto.compiledDirFiles.filter (fun f => pyEndsWith f ".py")) code)
              ∈ (rqdBuild env).1) ∧
         (env.proto.normOutcome = NormOutcome.toolNotFound →
            Event.warn "2to3 tool not found, skipping conversion" ∈ (rqdBuild env).1)))
  ∧ (∀ env : PycueEnv, reachesNormStage env.proto →
       (pycueBuild env).2 = none ∧
       ((env.proto.compiledDirFiles.filter (fun f => pyEndsWith f ".py")).isEmpty = false →
         (∀ code, env.proto.normOutcome = NormOutcome.calledProcessError code →
            Event.warn ("2to3 conversion failed or not needed: "
              ++ pyCPEStr (["2to3", "-w", "-n"]
                   ++ env.proto.compiledDirFiles.filter (fun f => pyEndsWith f ".py")) code)
              ∈ (pycueBuild env).1) ∧
         (env.proto.normOutcome = NormOutcome.toolNotFound →
            Event.warn "2to3 tool not found, skipping conversion" ∈ (pycueBuild env).1))) := by
  have hBase : ∀ env : ProtoEnv,
      (env.compiledDirFiles.filter (fun f => pyEndsWith f ".py")).isEmpty = false →
      (∀ code, env.normOutcome = NormOutcome.calledProcessError code →
         Event.warn ("2to3 conversion failed or not needed: "
           ++ pyCPEStr (["2to3", "-w", "-n"]
                ++ env.compiledDirFiles.filter (fun f => pyEndsWith f ".py")) code)
           ∈ normStepEvents env) ∧
      (env.normOutcome = NormOutcome.toolNotFound →
         Event.warn "2to3 tool not found, skipping conversion" ∈ normStepEvents env) := by
    intro env hempf
    constructor
    · intro code hc
      unfold normStepEvents
      rw [if_neg (by simp [hempf]), hc]
      simp
    · intro hc
      unfold normStepEvents
      rw [if_neg (by simp [hempf]), hc]
      simp
  constructor
  · intro env h
    rw [rqdBuild_ok env h]
    refine ⟨rfl, fun hempf => ⟨fun code hc => ?_, fun hc => ?_⟩⟩
    · have hmem := (hBase env.proto hempf).1 code hc
      simp only [List.append_assoc, List.mem_append]
      exact Or.inr (Or.inr (Or.inl hmem))
    · have hmem := (hBase env.proto hempf).2 hc
      simp only [List.append_assoc, List.mem_append]
      exact Or.inr (Or.inr (Or.inl hmem))
  · intro env h
    rw [pycueBuild_ok env h]
    refine ⟨rfl, fun hempf => ⟨fun code hc => ?_, fun hc => ?_⟩⟩
    · have hmem := (hBase env.proto hempf).1 code hc
      simp only [List.append_assoc, List.mem_append]
      exact Or.inr (Or.inr (Or.inl hmem))
    · have hmem := (hBase env.proto hempf).2 hc
      simp only [List.append_assoc, List.mem_append]
      exact Or.inr (Or.inr (Or.inl hmem))

/-- Witness for C9: a 2to3 exit status 1 leaves the warning and the build
still succeeds. -/
theorem c9_witness :
    (rqdBuild envNormFailRqd).2 = none ∧
      Event.warn ("2to3 conversion failed or not needed: "
        ++ pyCPEStr (["2to3", "-w", "-n"]
             ++ envNormFailRqd.proto.compiledDirFiles.filter (fun f => pyEndsWith f ".py")) 1)
        ∈ (rqdBuild envNormFailRqd).1 :=
  ⟨(c9_normalizer_non_fatal.1 envNormFailRqd
      ⟨⟨by decide, by decide, by decide⟩, by decide⟩).1,
   ((c9_normalizer_non_fatal.1 envNormFailRqd
      ⟨⟨by decide, by decide, by decide⟩, by decide⟩).2 (by decide)).1 1 (by decide)⟩

end OpenCueBuild
